import Mathlib

/-!
Verification of the data pipeline of `progetto.py` (air-quality dashboard for
Milan).  The core under verification is `prepara_dati` (ingestion of yearly
JSON measurement files, column coercion, join with the station registry) and
the three aggregate queries computed inside `avvia_app` (annual mean per
pollutant, top-5 station ranking, single-station series for the most recent
year).  The Streamlit presentation layer (widgets, charts) is out of scope;
queries are modelled as pure functions of the unified table and the
user-selected parameters.

Modelling conventions:
* a pandas DataFrame of measurement rows is a `List` of row structures;
* raw string fields that the pipeline parses (`valore` via `pd.to_numeric`,
  `data` via `pd.to_datetime`) are represented by `RawField α`: the library
  parser is not re-implemented, a raw field is abstracted by the outcome its
  parse would have (`ok v`, or `malformed s` carrying the offending text);
* numeric values are `ℚ` (idealised floats), timestamps are a `year` plus a
  position `sub` inside the year, ordered lexicographically;
* the filesystem is a function `String → Option (List RawRow)`: `none` models
  `FileNotFoundError`, `some rows` a readable JSON file parsed into rows;
* Python exceptions are `Except String`; `pd.to_numeric(..., errors="coerce")`
  yields `Option`; sorting (`groupby` keys, `sort_values`) is insertion sort,
  which agrees with pandas wherever the source's behaviour is specified
  (pandas leaves tie order among equal sort keys unspecified).
-/

namespace Progetto

/-- A parsed date/time value (result of `pd.to_datetime` on a well-formed
string): the calendar year plus the position within the year. -/
structure Timestamp where
  year : Int
  sub : Nat
deriving DecidableEq, Repr

/-- Chronological order on timestamps: lexicographic on (year, position). -/
def Timestamp.le (a b : Timestamp) : Prop :=
  a.year < b.year ∨ (a.year = b.year ∧ a.sub ≤ b.sub)

instance : DecidableRel Timestamp.le := fun a b =>
  decidable_of_iff (a.year < b.year ∨ (a.year = b.year ∧ a.sub ≤ b.sub)) Iff.rfl

theorem Timestamp.le_total (a b : Timestamp) : Timestamp.le a b ∨ Timestamp.le b a := by
  rcases lt_trichotomy a.year b.year with h | h | h
  · exact Or.inl (Or.inl h)
  · rcases Nat.le_total a.sub b.sub with hs | hs
    · exact Or.inl (Or.inr ⟨h, hs⟩)
    · exact Or.inr (Or.inr ⟨h.symm, hs⟩)
  · exact Or.inr (Or.inl h)

theorem Timestamp.le_trans {a b c : Timestamp} (hab : Timestamp.le a b)
    (hbc : Timestamp.le b c) : Timestamp.le a c := by
  rcases hab with h1 | ⟨h1, h1s⟩ <;> rcases hbc with h2 | ⟨h2, h2s⟩
  · exact Or.inl (h1.trans h2)
  · exact Or.inl (h2 ▸ h1)
  · exact Or.inl (h1 ▸ h2)
  · exact Or.inr ⟨h1.trans h2, h1s.trans h2s⟩

/-- A raw string field, abstracted by the outcome of parsing it with the
corresponding pandas parser: either a well-formed value or malformed text. -/
inductive RawField (α : Type) where
  | ok (a : α)
  | malformed (s : String)
deriving DecidableEq, Repr

/-- `pd.to_numeric(col, errors="coerce")` on one cell: a malformed value
becomes `NaN` (modelled as `none`) instead of raising. -/
def coerceNumeric : RawField ℚ → Option ℚ
  | .ok v => some v
  | .malformed _ => none

/-- A raw measurement row of one yearly JSON file: pollutant id, station id,
timestamp string, value string (`inquinante`, `stazione_id`, `data`,
`valore`). -/
structure RawRow where
  inquinante : String
  stazione_id : Int
  data : RawField Timestamp
  valore : RawField ℚ
deriving DecidableEq, Repr

/-- A row of the cleaned measurement frame after lines 69-72 of the source:
`valore` coerced to a number, `data` parsed, `anno` derived. -/
structure NormRow where
  inquinante : String
  stazione_id : Int
  data : Timestamp
  anno : Int
  valore : ℚ
deriving DecidableEq, Repr

/-- One station of the registry built from `dati_milano.json`
(`stazione_id = int(properties["id_amat"])`, `nome_stazione =
properties["nome"]`). -/
structure Station where
  stazione_id : Int
  nome_stazione : String
deriving DecidableEq, Repr

/-- A row of the unified table `df_completo`: a cleaned measurement joined
with its station's display name. -/
structure URow where
  inquinante : String
  stazione_id : Int
  data : Timestamp
  anno : Int
  valore : ℚ
  nome_stazione : String
deriving DecidableEq, Repr

/-- The hard-coded list of yearly measurement files (lines 50-54). -/
def file_json_annuali : List String :=
  ["aria15.json", "aria16.json", "aria17.json",
   "aria18.json", "aria19.json", "aria20.json",
   "aria23.json", "aria24.json", "aria25.json"]

/-- The loading loop (lines 56-64): try to open each file; a present file
contributes its parsed frame to `lista_dati`, a missing one only a
`st.warning` message.  Returns (`lista_dati`, warnings), both in source-list
order. -/
def caricaFile (fs : String → Option (List RawRow)) :
    List String → List (List RawRow) × List String
  | [] => ([], [])
  | n :: rest =>
    let acc := caricaFile fs rest
    match fs n with
    | some rows => (rows :: acc.1, acc.2)
    | none => (acc.1, ("Attenzione: " ++ n ++ " non trovato!") :: acc.2)

/-- `pd.concat(lista_dati, ignore_index=True)` (line 66): raises `ValueError`
when the list of frames is empty, otherwise stacks the frames in order. -/
def concatFrames (dfs : List (List RawRow)) : Except String (List RawRow) :=
  if dfs.isEmpty then .error "No objects to concatenate" else .ok dfs.flatten

/-- `pd.to_datetime(df["data"])` (line 70): default `errors="raise"`, so the
first malformed timestamp aborts with an exception; on success every row is
paired with its parsed timestamp. -/
def to_datetime : List RawRow → Except String (List (RawRow × Timestamp))
  | [] => .ok []
  | r :: rs =>
    match r.data with
    | .malformed s => .error s
    | .ok t =>
      match to_datetime rs with
      | .error e => .error e
      | .ok rest => .ok ((r, t) :: rest)

/-- The cleaning block (lines 69-72): coerce `valore` (`errors="coerce"`),
parse `data` (raising on malformed input), derive `anno = data.dt.year`, and
`dropna(subset=["valore"])`. -/
def normalize (rows : List RawRow) : Except String (List NormRow) :=
  match to_datetime rows with
  | .error e => .error e
  | .ok parsed => .ok (parsed.filterMap fun p =>
      match coerceNumeric p.1.valore with
      | some v => some ⟨p.1.inquinante, p.1.stazione_id, p.2, p.2.year, v⟩
      | none => none)

/-- Lift a cleaned row to a unified row by attaching a station name. -/
def NormRow.withName (r : NormRow) (nome : String) : URow :=
  ⟨r.inquinante, r.stazione_id, r.data, r.anno, r.valore, nome⟩

/-- `pd.merge(df, df_stazioni, on="stazione_id")` (line 88): inner join; each
measurement row is matched against every station row with the same id, and
the order of the left (measurement) keys is preserved. -/
def mergeStazioni (df : List NormRow) (stazioni : List Station) : List URow :=
  df.flatMap fun r =>
    (stazioni.filter fun s => s.stazione_id == r.stazione_id).map fun s =>
      r.withName s.nome_stazione

/-- `prepara_dati` (lines 49-90): load the yearly files, concatenate, clean,
and join with the station registry.  The registry (parsed from
`dati_milano.json`, whose absence would be fatal) is passed as `stazioni`;
no claim depends on its parsing.  Returns the unified table together with the
missing-file warnings, or the first uncaught exception. -/
def prepara_dati (fs : String → Option (List RawRow)) (stazioni : List Station) :
    Except String (List URow × List String) :=
  let carico := caricaFile fs file_json_annuali
  match concatFrames carico.1 with
  | .error e => .error e
  | .ok raw =>
    match normalize raw with
    | .error e => .error e
    | .ok df => .ok (mergeStazioni df stazioni, carico.2)

/-- `Series.mean()`: the arithmetic average of a column. -/
def meanQ (l : List ℚ) : ℚ := l.sum / l.length

/-- Lines 115-119: `df[df["inquinante"] == inquinante].groupby("anno")
["valore"].mean()` — filter to the pollutant, group by year (group keys are
produced sorted ascending), and take the mean of `valore` in each group. -/
def media_annuale (df : List URow) (inquinante : String) : List (Int × ℚ) :=
  let rows := df.filter fun r => r.inquinante == inquinante
  let anni := ((rows.map fun r => r.anno).dedup).insertionSort (· ≤ ·)
  anni.map fun a =>
    (a, meanQ ((rows.filter fun r => r.anno == a).map fun r => r.valore))

/-- Lines 132-135: when the annual series has more than one entry,
`delta = iloc[-1] - iloc[0]` and the wording is `"diminuito"` for `delta < 0`
and `"aumentato"` otherwise; with at most one entry no observation is made. -/
def trend (m : List (Int × ℚ)) : Option String :=
  if h : 1 < m.length then
    some (if (m.getLast (by intro hnil; rw [hnil] at h; simp at h)).2 -
             (m.head (by intro hnil; rw [hnil] at h; simp at h)).2 < 0
          then "diminuito" else "aumentato")
  else none

/-- Descending order by the mean component, the sort key of
`sort_values(ascending=False)` in the station ranking. -/
def mediaGe {κ : Type} (a b : κ × ℚ) : Prop := b.2 ≤ a.2

instance {κ : Type} : DecidableRel (@mediaGe κ) := fun a b =>
  inferInstanceAs (Decidable (b.2 ≤ a.2))

instance {κ : Type} : IsTotal (κ × ℚ) mediaGe := ⟨fun a b => le_total b.2 a.2⟩

instance {κ : Type} : IsTrans (κ × ℚ) mediaGe := ⟨fun _ _ _ hab hbc => le_trans hbc hab⟩

/-- Lines 142-148: filter to the pollutant, group by `nome_stazione` (group
keys produced sorted ascending), mean of `valore` per station, sort
descending by mean, `head(5)`. -/
def media_stazioni (df : List URow) (inquinante : String) : List (String × ℚ) :=
  let rows := df.filter fun r => r.inquinante == inquinante
  let nomi := ((rows.map fun r => r.nome_stazione).dedup).insertionSort (· ≤ ·)
  let medie := nomi.map fun n =>
    (n, meanQ ((rows.filter fun r => r.nome_stazione == n).map fun r => r.valore))
  (medie.insertionSort mediaGe).take 5

/-- `Series.max()`: `none` on an empty column (pandas `NaN`, which no value
compares equal to), otherwise the maximum entry. -/
def colMax : List Int → Option Int
  | [] => none
  | x :: xs =>
    match colMax xs with
    | none => some x
    | some m => some (max x m)

/-- Line 171: `anno_corrente = df["anno"].max()` — the most recent year of
the whole unified table. -/
def anno_corrente (df : List URow) : Option Int := colMax (df.map fun r => r.anno)

/-- Chronological order on unified rows by their `data` column, the sort key
of `sort_values("data")`. -/
def dataLe (a b : URow) : Prop := Timestamp.le a.data b.data

instance : DecidableRel dataLe := fun a b =>
  inferInstanceAs (Decidable (Timestamp.le a.data b.data))

/-- Lines 173-177: rows of the unified table matching the chosen station and
pollutant in the globally most recent year, sorted by timestamp. -/
def df_focus (df : List URow) (stazione inquinante : String) : List URow :=
  (df.filter fun r =>
      r.nome_stazione == stazione && r.inquinante == inquinante &&
      some r.anno == anno_corrente df).insertionSort dataLe

/-- Lines 179-191: the last section either draws the chart (`none`) or, when
`df_focus` is empty, surfaces the no-data warning (`some` message). -/
def dettaglio (df : List URow) (stazione inquinante : String) : Option String :=
  if (df_focus df stazione inquinante).isEmpty then
    some "Nessun dato disponibile per la selezione effettuata."
  else none

/-! ### Helper lemmas -/

theorem caricaFile_fst (fs : String → Option (List RawRow)) (names : List String) :
    (caricaFile fs names).1 = names.filterMap fs := by
  induction names with
  | nil => rfl
  | cons n rest ih =>
    simp only [caricaFile, List.filterMap_cons]
    cases h : fs n <;> simp [h, ih]

theorem caricaFile_snd (fs : String → Option (List RawRow)) (names : List String) :
    (caricaFile fs names).2 = (names.filter fun n => (fs n).isNone).map
      fun n => "Attenzione: " ++ n ++ " non trovato!" := by
  induction names with
  | nil => rfl
  | cons n rest ih =>
    simp only [caricaFile, List.filter_cons]
    cases h : fs n <;> simp [h, ih]

theorem to_datetime_ok (rows : List RawRow) (h : ∀ r ∈ rows, ∃ t, r.data = RawField.ok t) :
    ∃ parsed, to_datetime rows = .ok parsed ∧ parsed.map Prod.fst = rows ∧
      ∀ p ∈ parsed, p.1.data = RawField.ok p.2 := by
  induction rows with
  | nil => exact ⟨[], rfl, rfl, by simp⟩
  | cons r rs ih =>
    obtain ⟨t, ht⟩ := h r (List.mem_cons_self r rs)
    obtain ⟨rest, hrest, hmap, hall⟩ := ih fun x hx => h x (List.mem_cons_of_mem r hx)
    refine ⟨(r, t) :: rest, ?_, by simp [hmap], ?_⟩
    · simp only [to_datetime, ht, hrest]
    · intro p hp
      rcases List.mem_cons.mp hp with rfl | hp
      · exact ht
      · exact hall p hp

theorem to_datetime_error (rows : List RawRow)
    (h : ∃ r ∈ rows, ∃ s, r.data = RawField.malformed s) :
    ∃ e, to_datetime rows = .error e := by
  induction rows with
  | nil => simp at h
  | cons r rs ih =>
    cases hd : r.data with
    | malformed s => exact ⟨s, by simp [to_datetime, hd]⟩
    | ok t =>
      obtain ⟨r', hr', s, hs⟩ := h
      rcases List.mem_cons.mp hr' with rfl | hr'
      · rw [hd] at hs; cases hs
      · obtain ⟨e, he⟩ := ih ⟨r', hr', s, hs⟩
        exact ⟨e, by simp [to_datetime, hd, he]⟩

/-! ### C1: behaviour when every yearly source file is missing -/

/-- **C1, counterexample.**  The claim asserts that when no yearly source file
exists, `prepara_dati` completes and yields an empty table.  In fact the
loading loop collects zero frames and `pd.concat` of an empty list raises
`ValueError`, so the pipeline errors instead of returning a table. -/
theorem C1_counterexample :
    prepara_dati (fun _ => none) [] = Except.error "No objects to concatenate" := rfl

/-- **C1, amended.**  If every listed yearly source file is missing, the
loading loop produces an empty frame list and `prepara_dati` raises the
`pd.concat` error `"No objects to concatenate"`; the all-missing case is a
crash, not an empty table. -/
theorem C1_theorem (fs : String → Option (List RawRow)) (stazioni : List Station)
    (h : ∀ n ∈ file_json_annuali, fs n = none) :
    prepara_dati fs stazioni = Except.error "No objects to concatenate" := by
  have h1 : (caricaFile fs file_json_annuali).1 = [] := by
    rw [caricaFile_fst, List.filterMap_eq_nil_iff]
    exact h
  simp [prepara_dati, h1, concatFrames]

/-- **C1, witness for the amended theorem** at a concrete filesystem with no
readable file and a one-station registry. -/
theorem C1_witness :
    prepara_dati (fun _ => none) [⟨1, "Verziere"⟩] =
      Except.error "No objects to concatenate" :=
  C1_theorem (fun _ => none) [⟨1, "Verziere"⟩] (fun _ _ => rfl)

/-! ### C2: behaviour on a malformed timestamp -/

/-- **C2, counterexample.**  The claim asserts that a row whose timestamp
cannot be parsed is excluded from the normalized output without aborting the
run.  In fact `pd.to_datetime(df["data"])` is called with the default
`errors="raise"`, so one malformed timestamp makes normalization raise: with
one well-formed row and one row with unparseable timestamp text
`"non-una-data"`, `normalize` returns that exception and produces no output
at all. -/
theorem C2_counterexample :
    normalize [⟨"PM10", 1, .ok ⟨2020, 0⟩, .ok 30⟩,
               ⟨"PM10", 1, .malformed "non-una-data", .ok 20⟩] =
      Except.error "non-una-data" := rfl

/-- **C2, amended.**  A raw row whose timestamp field fails date/time parsing
causes normalization to raise (aborting the run); such rows are not silently
excluded.  (Only value-coercion failures are dropped silently; when
normalization succeeds every output row's timestamp parsed successfully,
which holds by construction of `NormRow`.) -/
theorem C2_theorem (rows : List RawRow)
    (h : ∃ r ∈ rows, ∃ s, r.data = RawField.malformed s) :
    ∃ e, normalize rows = Except.error e := by
  obtain ⟨e, he⟩ := to_datetime_error rows h
  exact ⟨e, by simp [normalize, he]⟩

/-- **C2, witness for the amended theorem** at a concrete one-row input whose
timestamp text is unparseable. -/
theorem C2_witness :
    ∃ e, normalize [⟨"NO2", 2, .malformed "31/02/never", .ok 10⟩] =
      Except.error e :=
  C2_theorem _ ⟨_, List.mem_cons_self _ _, "31/02/never", rfl⟩

/-! ### C3: the join is an inner join on `stazione_id` -/

/-- The measurement part of a unified row (forgetting the station name the
join attached). -/
def URow.toNorm (r : URow) : NormRow :=
  ⟨r.inquinante, r.stazione_id, r.data, r.anno, r.valore⟩

theorem toNorm_withName (r : NormRow) (nome : String) :
    (r.withName nome).toNorm = r := rfl

theorem filter_stazione_of_nodup {stazioni : List Station}
    (h : (stazioni.map fun s => s.stazione_id).Nodup) {s : Station}
    (hs : s ∈ stazioni) {i : Int} (hid : s.stazione_id = i) :
    stazioni.filter (fun x => x.stazione_id == i) = [s] := by
  induction stazioni with
  | nil => cases hs
  | cons a rest ih =>
    rw [List.map_cons, List.nodup_cons] at h
    rw [List.filter_cons]
    rcases List.mem_cons.mp hs with heq | hmem
    · subst heq
      have hrest : rest.filter (fun x => x.stazione_id == i) = [] := by
        rw [List.filter_eq_nil_iff]
        intro x hx hbeq
        exact h.1 (List.mem_map.mpr ⟨x, hx, by rw [beq_iff_eq.mp hbeq, hid]⟩)
      simp [hid, hrest]
    · have hne : (a.stazione_id == i) = false := by
        apply beq_eq_false_iff_ne.mpr
        intro hEq
        exact h.1 (List.mem_map.mpr ⟨s, hmem, by rw [hid, ← hEq]⟩)
      simp only [hne, Bool.false_eq_true, if_false]
      exact ih h.2 hmem

/-- **C3.**  With pairwise-distinct station ids (the station table's key
invariant), the inner join keeps, in order and with multiplicity, exactly the
measurement rows whose `stazione_id` has a matching station; all others are
silently dropped, so the unified table never has more rows than the
measurement table. -/
theorem C3_theorem (df : List NormRow) (stazioni : List Station)
    (h : (stazioni.map fun s => s.stazione_id).Nodup) :
    (mergeStazioni df stazioni).map URow.toNorm =
      df.filter (fun r => stazioni.any fun s => s.stazione_id == r.stazione_id) ∧
    (mergeStazioni df stazioni).length ≤ df.length := by
  have key : (mergeStazioni df stazioni).map URow.toNorm =
      df.filter (fun r => stazioni.any fun s => s.stazione_id == r.stazione_id) := by
    induction df with
    | nil => rfl
    | cons r rs ih =>
      simp only [mergeStazioni, List.flatMap_cons, List.map_append] at *
      rw [List.filter_cons]
      cases hmatch : stazioni.any fun s => s.stazione_id == r.stazione_id with
      | false =>
        have hfil : stazioni.filter (fun s => s.stazione_id == r.stazione_id) = [] := by
          rw [List.filter_eq_nil_iff]
          intro x hx hbeq
          have hco : (stazioni.any fun s => s.stazione_id == r.stazione_id) = true :=
            List.any_eq_true.mpr ⟨x, hx, hbeq⟩
          rw [hmatch] at hco
          cases hco
        simpa [hfil] using ih
      | true =>
        obtain ⟨s, hs, hbeq⟩ := List.any_eq_true.mp hmatch
        rw [filter_stazione_of_nodup h hs (beq_iff_eq.mp hbeq)]
        simpa [toNorm_withName] using ih
  refine ⟨key, ?_⟩
  calc (mergeStazioni df stazioni).length
      = ((mergeStazioni df stazioni).map URow.toNorm).length := (List.length_map _ _).symm
    _ = (df.filter fun r => stazioni.any fun s => s.stazione_id == r.stazione_id).length := by
        rw [key]
    _ ≤ df.length := List.length_filter_le _ _

/-- **C3, witness**: one matching and one unmatched measurement row joined
against a single-station registry; the unmatched row (station 2) is dropped
and the row count decreases from 2 to 1. -/
theorem C3_witness :
    (mergeStazioni [⟨"PM10", 1, ⟨2020, 0⟩, 2020, 30⟩, ⟨"PM10", 2, ⟨2020, 1⟩, 2020, 40⟩]
        [⟨1, "Verziere"⟩]).map URow.toNorm =
      [⟨"PM10", 1, ⟨2020, 0⟩, 2020, 30⟩] ∧
    (mergeStazioni [⟨"PM10", 1, ⟨2020, 0⟩, 2020, 30⟩, ⟨"PM10", 2, ⟨2020, 1⟩, 2020, 40⟩]
        [⟨1, "Verziere"⟩]).length ≤ 2 := by
  have h := C3_theorem
    [⟨"PM10", 1, ⟨2020, 0⟩, 2020, 30⟩, ⟨"PM10", 2, ⟨2020, 1⟩, 2020, 40⟩]
    [⟨1, "Verziere"⟩] (by decide)
  exact ⟨by rw [h.1]; rfl, h.2⟩

/-! ### C4: annual mean per pollutant -/

theorem map_fst_map_pair {α β : Type} (l : List α) (f : α → β) :
    (l.map fun a => (a, f a)).map Prod.fst = l := by
  induction l with
  | nil => rfl
  | cons a as ih => simp [ih]

/-- **C4.**  For any pollutant, `media_annuale` is indexed by strictly
increasing years; its years are exactly the years occurring among the rows of
that pollutant (one entry per distinct year); and each entry's mean is the
arithmetic average of exactly the values of the rows matching that pollutant
and that year. -/
theorem C4_theorem (df : List URow) (inquinante : String) :
    List.Sorted (· < ·) ((media_annuale df inquinante).map Prod.fst) ∧
    (∀ a : Int,
      a ∈ (media_annuale df inquinante).map Prod.fst ↔
        a ∈ (df.filter fun r => r.inquinante == inquinante).map fun r => r.anno) ∧
    ∀ p ∈ media_annuale df inquinante,
      p.2 = meanQ (((df.filter fun r => r.inquinante == inquinante).filter fun r =>
          r.anno == p.1).map fun r => r.valore) := by
  have hfst : (media_annuale df inquinante).map Prod.fst =
      List.insertionSort (· ≤ ·)
        (((df.filter fun r => r.inquinante == inquinante).map fun r => r.anno).dedup) :=
    map_fst_map_pair _ _
  have hperm : (List.insertionSort (· ≤ ·)
      (((df.filter fun r => r.inquinante == inquinante).map fun r => r.anno).dedup)).Perm
      (((df.filter fun r => r.inquinante == inquinante).map fun r => r.anno).dedup) :=
    List.perm_insertionSort _ _
  have hnodup : (List.insertionSort (· ≤ ·)
      (((df.filter fun r => r.inquinante == inquinante).map fun r => r.anno).dedup)).Nodup :=
    hperm.nodup_iff.mpr (List.nodup_dedup _)
  have hsort : List.Sorted (· ≤ ·) (List.insertionSort (· ≤ ·)
      (((df.filter fun r => r.inquinante == inquinante).map fun r => r.anno).dedup)) :=
    List.sorted_insertionSort _ _
  refine ⟨?_, ?_, ?_⟩
  · rw [hfst]
    exact (hsort.and hnodup).imp fun h => lt_of_le_of_ne h.1 h.2
  · intro a
    rw [hfst, hperm.mem_iff, List.mem_dedup]
  · intro p hp
    simp only [media_annuale] at hp
    obtain ⟨a, ha, rfl⟩ := List.mem_map.mp hp
    rfl

/-- **C4, witness** on the spec's worked example (PM10, station 1, 30 in 2020
and 20 in 2021): the theorem applied there gives back exactly year list
[2020, 2021] and each year's mean. -/
theorem C4_witness :
    List.Sorted (· < ·) ((media_annuale
      [⟨"PM10", 1, ⟨2020, 0⟩, 2020, 30, "Verziere"⟩,
       ⟨"PM10", 1, ⟨2021, 0⟩, 2021, 20, "Verziere"⟩] "PM10").map Prod.fst) ∧
    ((2020 : Int) ∈ (media_annuale
      [⟨"PM10", 1, ⟨2020, 0⟩, 2020, 30, "Verziere"⟩,
       ⟨"PM10", 1, ⟨2021, 0⟩, 2021, 20, "Verziere"⟩] "PM10").map Prod.fst) := by
  have h := C4_theorem
    [⟨"PM10", 1, ⟨2020, 0⟩, 2020, 30, "Verziere"⟩,
     ⟨"PM10", 1, ⟨2021, 0⟩, 2021, 20, "Verziere"⟩] "PM10"
  exact ⟨h.1, (h.2.1 2020).mpr (by decide)⟩

/-! ### C5: trend signal from the annual series -/

theorem trend_of_short {m : List (Int × ℚ)} (h : m.length ≤ 1) : trend m = none := by
  unfold trend
  rw [dif_neg]
  omega

theorem trend_of_long {m : List (Int × ℚ)} {primo ultimo : Int × ℚ}
    (h : 1 < m.length) (h1 : m.head? = some primo) (h2 : m.getLast? = some ultimo) :
    trend m = some (if ultimo.2 - primo.2 < 0 then "diminuito" else "aumentato") := by
  have hne : m ≠ [] := by
    intro hnil
    rw [hnil] at h
    simp at h
  rw [List.head?_eq_head hne] at h1
  rw [List.getLast?_eq_getLast m hne] at h2
  unfold trend
  rw [dif_pos h]
  rw [Option.some_inj.mp h1, Option.some_inj.mp h2]

/-- Example rows of the spec's worked example: PM10 at station "Verziere",
value 30 in 2020 and 20 in 2021. -/
def verziere20 : URow := ⟨"PM10", 1, ⟨2020, 0⟩, 2020, 30, "Verziere"⟩

def verziere21 : URow := ⟨"PM10", 1, ⟨2021, 0⟩, 2021, 20, "Verziere"⟩

/-- **C5.**  The annual series has one entry per distinct year of the
pollutant's rows; with at most one entry no trend is produced; with more than
one entry the trend is derived from `delta` = last mean - first mean, wording
`"diminuito"` exactly when `delta < 0` and `"aumentato"` otherwise, including
`delta = 0`. -/
theorem C5_theorem (df : List URow) (inquinante : String) :
    (media_annuale df inquinante).length =
      (((df.filter fun r => r.inquinante == inquinante).map fun r => r.anno).dedup).length ∧
    ((media_annuale df inquinante).length ≤ 1 → trend (media_annuale df inquinante) = none) ∧
    ∀ primo ultimo : Int × ℚ, 1 < (media_annuale df inquinante).length →
      (media_annuale df inquinante).head? = some primo →
      (media_annuale df inquinante).getLast? = some ultimo →
      trend (media_annuale df inquinante) =
        some (if ultimo.2 - primo.2 < 0 then "diminuito" else "aumentato") := by
  refine ⟨?_, fun h => trend_of_short h, fun primo ultimo h h1 h2 => trend_of_long h h1 h2⟩
  show ((((df.filter fun r => r.inquinante == inquinante).map fun r =>
      r.anno).dedup.insertionSort (· ≤ ·)).map _).length = _
  rw [List.length_map, (List.perm_insertionSort _ _).length_eq]

/-- **C5, witness** on the spec's worked example: two distinct years, means
30 then 20, delta = -10 < 0, so the trend reads `"diminuito"`. -/
theorem C5_witness :
    trend (media_annuale [verziere20, verziere21] "PM10") = some "diminuito" := by
  have hm : media_annuale [verziere20, verziere21] "PM10" = [(2020, 30), (2021, 20)] := by
    norm_num [media_annuale, meanQ, verziere20, verziere21, List.insertionSort,
      List.orderedInsert, List.dedup]
  have h := (C5_theorem [verziere20, verziere21] "PM10").2.2 (2020, 30) (2021, 20)
    (by rw [hm]; decide) (by rw [hm]; rfl) (by rw [hm]; rfl)
  rw [h]
  norm_num

/-! ### C6: top-5 station ranking -/

theorem sort_take_sorted {κ : Type} (medie : List (κ × ℚ)) :
    List.Sorted mediaGe ((medie.insertionSort mediaGe).take 5) :=
  List.Pairwise.sublist (List.take_sublist _ _) (List.sorted_insertionSort mediaGe medie)

theorem sort_take_mem {κ : Type} {medie : List (κ × ℚ)} {p : κ × ℚ}
    (hp : p ∈ (medie.insertionSort mediaGe).take 5) : p ∈ medie :=
  (List.perm_insertionSort mediaGe medie).subset ((List.take_sublist _ _).subset hp)

theorem sort_take_nodup {κ : Type} (medie : List (κ × ℚ))
    (h : (medie.map Prod.fst).Nodup) :
    (((medie.insertionSort mediaGe).take 5).map Prod.fst).Nodup := by
  rw [List.map_take]
  exact ((List.take_sublist _ _).nodup
    ((((List.perm_insertionSort mediaGe medie).map Prod.fst)).nodup_iff.mpr h))

/-- **C6.**  The station ranking has at most 5 entries, is sorted
non-increasing by mean, names pairwise-distinct stations each actually
occurring among the pollutant's rows, and each listed mean is the arithmetic
average of exactly that station's matching rows over the whole period. -/
theorem C6_theorem (df : List URow) (inquinante : String) :
    (media_stazioni df inquinante).length ≤ 5 ∧
    List.Sorted mediaGe (media_stazioni df inquinante) ∧
    ((media_stazioni df inquinante).map Prod.fst).Nodup ∧
    ∀ p ∈ media_stazioni df inquinante,
      p.1 ∈ ((df.filter fun r => r.inquinante == inquinante).map fun r =>
        r.nome_stazione) ∧
      p.2 = meanQ (((df.filter fun r => r.inquinante == inquinante).filter fun r =>
          r.nome_stazione == p.1).map fun r => r.valore) := by
  refine ⟨List.length_take_le _ _, sort_take_sorted _, ?_, ?_⟩
  · apply sort_take_nodup
    rw [map_fst_map_pair]
    exact ((List.perm_insertionSort _ _).nodup_iff).mpr (List.nodup_dedup _)
  · intro p hp
    obtain ⟨n, hn, rfl⟩ := List.mem_map.mp (sort_take_mem hp)
    refine ⟨?_, rfl⟩
    exact List.mem_dedup.mp ((List.perm_insertionSort _ _).subset hn)

/-- **C6, witness**: PM10 rows at a single station with values 30 and 20;
the ranking is the single entry ("Verziere", 25), its mean the average of
both rows. -/
theorem C6_witness :
    (media_stazioni [verziere20, verziere21] "PM10").length ≤ 5 ∧
    ("Verziere", (25 : ℚ)) ∈ media_stazioni [verziere20, verziere21] "PM10" ∧
    (25 : ℚ) = meanQ ((([verziere20, verziere21].filter fun r =>
        r.inquinante == "PM10").filter fun r =>
        r.nome_stazione == "Verziere").map fun r => r.valore) := by
  have hms : media_stazioni [verziere20, verziere21] "PM10" = [("Verziere", 25)] := by
    norm_num [media_stazioni, meanQ, verziere20, verziere21, List.insertionSort,
      List.orderedInsert, List.dedup]
  have h := C6_theorem [verziere20, verziere21] "PM10"
  refine ⟨h.1, ?_, ?_⟩
  · rw [hms]
    exact List.mem_singleton.mpr rfl
  · exact (h.2.2.2 ("Verziere", 25) (by rw [hms]; exact List.mem_singleton.mpr rfl)).2

/-! ### C7: single-station series for the globally most recent year -/

instance : IsTotal URow dataLe := ⟨fun a b => Timestamp.le_total a.data b.data⟩

instance : IsTrans URow dataLe := ⟨fun _ _ _ => Timestamp.le_trans⟩

theorem colMax_cons_of_none {xs : List Int} (h : colMax xs = none) (x : Int) :
    colMax (x :: xs) = some x := by
  unfold colMax
  rw [h]

theorem colMax_cons_of_some {xs : List Int} {m : Int} (h : colMax xs = some m) (x : Int) :
    colMax (x :: xs) = some (max x m) := by
  unfold colMax
  rw [h]

theorem colMax_eq_none {xs : List Int} : colMax xs = none ↔ xs = [] := by
  cases xs with
  | nil => simp [colMax]
  | cons y ys =>
    constructor
    · intro h
      exfalso
      cases hy : colMax ys with
      | none => rw [colMax_cons_of_none hy] at h; cases h
      | some m => rw [colMax_cons_of_some hy] at h; cases h
    · intro h; cases h

theorem colMax_eq_some (l : List Int) :
    ∀ m : Int, colMax l = some m ↔ m ∈ l ∧ ∀ x ∈ l, x ≤ m := by
  induction l with
  | nil => intro m; simp [colMax]
  | cons x xs ih =>
    intro m
    cases hy : colMax xs with
    | none =>
      have hnil := colMax_eq_none.mp hy
      subst hnil
      rw [colMax_cons_of_none hy]
      constructor
      · intro h
        injection h with h
        subst h
        exact ⟨List.mem_singleton.mpr rfl, by simp⟩
      · rintro ⟨hm, _⟩
        rw [List.mem_singleton.mp hm]
    | some k =>
      rw [colMax_cons_of_some hy]
      have hk := (ih k).mp hy
      constructor
      · intro h
        injection h with h
        subst h
        rcases le_total x k with hxk | hkx
        · rw [max_eq_right hxk]
          refine ⟨List.mem_cons_of_mem _ hk.1, ?_⟩
          intro z hz
          rcases List.mem_cons.mp hz with rfl | hz
          · exact hxk
          · exact hk.2 z hz
        · rw [max_eq_left hkx]
          refine ⟨List.mem_cons_self _ _, ?_⟩
          intro z hz
          rcases List.mem_cons.mp hz with rfl | hz
          · exact le_refl _
          · exact (hk.2 z hz).trans hkx
      · rintro ⟨hm, hb⟩
        have hxm : x ≤ m := hb x (List.mem_cons_self _ _)
        have hkm : k ≤ m := hb k (List.mem_cons_of_mem _ hk.1)
        have hmx : m ≤ max x k := by
          rcases List.mem_cons.mp hm with rfl | hm2
          · exact le_max_left _ _
          · exact (hk.2 m hm2).trans (le_max_right _ _)
        rw [le_antisymm (max_le hxm hkm) hmx]

theorem anno_corrente_eq_some (df : List URow) (a : Int) :
    anno_corrente df = some a ↔
      (a ∈ df.map fun r => r.anno) ∧ ∀ r ∈ df, r.anno ≤ a := by
  rw [anno_corrente, colMax_eq_some]
  constructor
  · rintro ⟨h1, h2⟩
    exact ⟨h1, fun r hr => h2 _ (List.mem_map_of_mem _ hr)⟩
  · rintro ⟨h1, h2⟩
    refine ⟨h1, ?_⟩
    intro x hx
    obtain ⟨r, hr, rfl⟩ := List.mem_map.mp hx
    exact h2 r hr

/-- **C7.**  The focus series is sorted ascending by timestamp; the reference
year is the maximum year appearing anywhere in the full unified table (a
global maximum, characterised as a year that occurs in the table and bounds
every row's year); and the series consists, with multiplicity, of exactly
the table rows matching the chosen station name, pollutant, and that global
year. -/
theorem C7_theorem (df : List URow) (stazione inquinante : String) :
    List.Sorted dataLe (df_focus df stazione inquinante) ∧
    (∀ a : Int, anno_corrente df = some a ↔
      (a ∈ df.map fun r => r.anno) ∧ ∀ r ∈ df, r.anno ≤ a) ∧
    (df_focus df stazione inquinante).Perm
      (df.filter fun r => r.nome_stazione == stazione && r.inquinante == inquinante &&
        some r.anno == anno_corrente df) :=
  ⟨List.sorted_insertionSort _ _, fun a => anno_corrente_eq_some df a,
    List.perm_insertionSort _ _⟩

/-- **C7, witness**: on the two-row example the most recent year is 2021 —
established through the theorem's characterisation of `anno_corrente` — and
the focus series is a permutation of the filtered selection. -/
theorem C7_witness :
    anno_corrente [verziere20, verziere21] = some 2021 ∧
    (df_focus [verziere20, verziere21] "Verziere" "PM10").Perm
      ([verziere20, verziere21].filter fun r => r.nome_stazione == "Verziere" &&
        r.inquinante == "PM10" && some r.anno == anno_corrente [verziere20, verziere21]) := by
  have h := C7_theorem [verziere20, verziere21] "Verziere" "PM10"
  exact ⟨(h.2.1 2021).mpr ⟨by decide, by decide⟩, h.2.2⟩

/-! ### C8: empty selections resolve to a "no data" state, never an error -/

/-- **C8.**  When no row of the unified table matches the chosen station,
pollutant and most-recent-year combination, the focus selection is the empty
sequence and the detail section surfaces the "no data" warning instead of a
chart.  (`df_focus` and `dettaglio` are total functions: no exception is
possible by construction.) -/
theorem C8_theorem (df : List URow) (stazione inquinante : String)
    (h : ∀ r ∈ df, ¬(r.nome_stazione = stazione ∧ r.inquinante = inquinante ∧
        anno_corrente df = some r.anno)) :
    df_focus df stazione inquinante = [] ∧
    dettaglio df stazione inquinante =
      some "Nessun dato disponibile per la selezione effettuata." := by
  have hfil : (df.filter fun r => r.nome_stazione == stazione &&
      r.inquinante == inquinante && some r.anno == anno_corrente df) = [] := by
    rw [List.filter_eq_nil_iff]
    intro r hr hb
    simp only [Bool.and_eq_true, beq_iff_eq] at hb
    exact h r hr ⟨hb.1.1, hb.1.2, hb.2.symm⟩
  have hfoc : df_focus df stazione inquinante = [] := by
    unfold df_focus
    rw [hfil]
    rfl
  exact ⟨hfoc, by simp [dettaglio, hfoc]⟩

/-- **C8, witness**: a table with one PM10 row at "Verziere" queried for the
station "Altrove": nothing matches, the selection is empty, and the no-data
warning is shown. -/
theorem C8_witness :
    df_focus [verziere20] "Altrove" "PM10" = [] ∧
    dettaglio [verziere20] "Altrove" "PM10" =
      some "Nessun dato disponibile per la selezione effettuata." :=
  C8_theorem [verziere20] "Altrove" "PM10" (by decide)

/-! ### C9: partially missing yearly sources -/

/-- **C9.**  On a source list with at least one readable and at least one
missing file, the concatenation step succeeds (ingestion does not abort) and
returns exactly the successfully parsed rows stacked in source-list order;
every missing source contributes precisely its own warning message, at least
one warning is emitted, and every row of every readable source reaches the
concatenated table. -/
theorem C9_theorem (fs : String → Option (List RawRow)) (names : List String)
    (hpresente : ∃ n ∈ names, (fs n).isSome)
    (hmancante : ∃ n ∈ names, fs n = none) :
    concatFrames (caricaFile fs names).1 = Except.ok (names.filterMap fs).flatten ∧
    (caricaFile fs names).2 = (names.filter fun n => (fs n).isNone).map
      (fun n => "Attenzione: " ++ n ++ " non trovato!") ∧
    (caricaFile fs names).2 ≠ [] ∧
    ∀ n ∈ names, ∀ rows, fs n = some rows → ∀ r ∈ rows,
      r ∈ (names.filterMap fs).flatten := by
  refine ⟨?_, caricaFile_snd fs names, ?_, ?_⟩
  · rw [caricaFile_fst]
    unfold concatFrames
    rw [if_neg]
    obtain ⟨n, hn, hsome⟩ := hpresente
    intro hemp
    rw [List.isEmpty_iff, List.filterMap_eq_nil_iff] at hemp
    rw [hemp n hn] at hsome
    cases hsome
  · rw [caricaFile_snd]
    intro hemp
    rw [List.map_eq_nil_iff, List.filter_eq_nil_iff] at hemp
    obtain ⟨n, hn, hnone⟩ := hmancante
    exact hemp n hn (by rw [hnone]; rfl)
  · intro n hn rows hrows r hr
    exact List.mem_flatten.mpr ⟨rows, List.mem_filterMap.mpr ⟨n, hn, hrows⟩, hr⟩

/-- A concrete filesystem where only `aria15.json` exists. -/
def fsEsempio : String → Option (List RawRow) := fun n =>
  if n = "aria15.json" then some [⟨"PM10", 1, .ok ⟨2015, 0⟩, .ok 45⟩] else none

/-- **C9, witness**: with only `aria15.json` readable among the nine listed
files, concatenation succeeds with that file's single row and the warning
list is nonempty. -/
theorem C9_witness :
    concatFrames (caricaFile fsEsempio file_json_annuali).1 =
      Except.ok [⟨"PM10", 1, .ok ⟨2015, 0⟩, .ok 45⟩] ∧
    (caricaFile fsEsempio file_json_annuali).2 ≠ [] := by
  have h := C9_theorem fsEsempio file_json_annuali
    ⟨"aria15.json", by decide, by decide⟩ ⟨"aria16.json", by decide, by decide⟩
  exact ⟨h.1.trans (by rfl), h.2.2.1⟩

/-! ### C10: value-coercion failures are dropped, year derives from timestamp -/

/-- **C10.**  On rows whose timestamps all parse (the régime in which
normalization returns at all, cf. C2), normalization succeeds without
raising; every output row's `anno` equals the year of its parsed timestamp
and its `valore` stems from a successful numeric coercion of an input row
(so it is never missing, `valore : ℚ` being total); and the output has
exactly one row per input row whose value coerces — rows failing value
coercion are dropped silently. -/
theorem C10_theorem (rows : List RawRow)
    (h : ∀ r ∈ rows, ∃ t, r.data = RawField.ok t) :
    ∃ out, normalize rows = Except.ok out ∧
      (∀ nr ∈ out, nr.anno = nr.data.year ∧
        ∃ r ∈ rows, r.data = RawField.ok nr.data ∧
          coerceNumeric r.valore = some nr.valore) ∧
      out.length = (rows.filter fun r => (coerceNumeric r.valore).isSome).length := by
  obtain ⟨parsed, hok, hmap, hall⟩ := to_datetime_ok rows h
  refine ⟨parsed.filterMap fun p =>
      match coerceNumeric p.1.valore with
      | some v => some ⟨p.1.inquinante, p.1.stazione_id, p.2, p.2.year, v⟩
      | none => none, ?_, ?_, ?_⟩
  · unfold normalize
    rw [hok]
  · intro nr hnr
    obtain ⟨p, hp, hF⟩ := List.mem_filterMap.mp hnr
    cases hc : coerceNumeric p.1.valore with
    | none => rw [hc] at hF; cases hF
    | some v =>
      rw [hc] at hF
      injection hF with hF
      subst hF
      refine ⟨rfl, p.1, ?_, hall p hp, hc⟩
      rw [← hmap]
      exact List.mem_map_of_mem _ hp
  · have key : ∀ ps : List (RawRow × Timestamp),
        (ps.filterMap fun p => match coerceNumeric p.1.valore with
          | some v => some (⟨p.1.inquinante, p.1.stazione_id, p.2, p.2.year, v⟩ : NormRow)
          | none => none).length =
        ((ps.map Prod.fst).filter fun r => (coerceNumeric r.valore).isSome).length := by
      intro ps
      induction ps with
      | nil => rfl
      | cons p ps ih =>
        rw [List.filterMap_cons, List.map_cons, List.filter_cons]
        cases hc : coerceNumeric p.1.valore with
        | none => simpa [hc] using ih
        | some v => simpa [hc] using ih
    rw [key parsed, hmap]

/-- **C10, witness**: two rows with parseable timestamps, one with a
malformed value (`"n/d"`): normalization succeeds and keeps exactly the one
coercible row. -/
theorem C10_witness :
    ∃ out, normalize [⟨"PM10", 1, .ok ⟨2020, 5⟩, .ok 30⟩,
        ⟨"PM10", 1, .ok ⟨2020, 6⟩, .malformed "n/d"⟩] = Except.ok out ∧
      out.length = 1 := by
  obtain ⟨out, hok, _, hlen⟩ := C10_theorem
    [⟨"PM10", 1, .ok ⟨2020, 5⟩, .ok 30⟩, ⟨"PM10", 1, .ok ⟨2020, 6⟩, .malformed "n/d"⟩]
    (by
      intro r hr
      rcases List.mem_cons.mp hr with rfl | hr
      · exact ⟨⟨2020, 5⟩, rfl⟩
      rcases List.mem_cons.mp hr with rfl | hr
      · exact ⟨⟨2020, 6⟩, rfl⟩
      · cases hr)
  exact ⟨out, hok, by rw [hlen]; rfl⟩

end Progetto
